import Mathlib

/-!
Shallow embedding of `cmd/api/middleware.go` of the greenlight repository:
the middleware chain (panic recovery, per-client rate limiting with a
background sweeper, bearer-token authentication, layered authorization,
CORS negotiation and response metrics), together with theorems settling
the specification claims about it.

Time is measured in seconds, as rational numbers; token counts are
rational (the limiter allows fractional tokens internally).
-/

namespace Greenlight

/-! ## Rate limiter (`rateLimit`, middleware.go lines 40-91)

The token bucket itself lives in the external dependency
`golang.org/x/time/rate`; its behaviour is modelled from the spec
(section 4.2): continuous refill at `rps` tokens per second, capped at
`burst`; `allow` consumes one token exactly when at least one is
available, otherwise it consumes nothing. -/

/-- Modelled from the spec: state of one `rate.Limiter` token bucket
(the `golang.org/x/time/rate` dependency is not part of this repository).
`tokens` is the token count at time `last`. -/
structure TokenBucket where
  tokens : ℚ
  last : ℚ
deriving DecidableEq

/-- Modelled from the spec: a freshly created limiter
(`rate.NewLimiter`) holds a full burst of tokens. -/
def TokenBucket.new (burst : ℕ) (now : ℚ) : TokenBucket :=
  ⟨(burst : ℚ), now⟩

/-- Modelled from the spec: `Limiter.Allow` at time `now`. Tokens refill
continuously at `rps` per second since `last`, capped at `burst`; the
request is admitted, consuming one token, exactly when at least one
token is available. -/
def TokenBucket.allow (burst : ℕ) (rps : ℚ) (b : TokenBucket) (now : ℚ) :
    Bool × TokenBucket :=
  let tk := min (burst : ℚ) (b.tokens + (now - b.last) * rps)
  if 1 ≤ tk then (true, ⟨tk - 1, now⟩) else (false, ⟨tk, now⟩)

/-- One entry of the `clients` map (the `client` struct of
`rateLimit`): the per-client limiter and the `lastSeen` timestamp. -/
structure RLClient where
  limiter : TokenBucket
  lastSeen : ℚ
deriving DecidableEq

/-- The `clients` registry: a map from client IP to its entry, absent
keys meaning never seen or evicted. -/
abbrev ClientMap := String → Option RLClient

/-- The empty registry (`make(map[string]*client)`). -/
def emptyClientMap : ClientMap := fun _ => none

/-- Pointwise update of the registry (`clients[ip] = ...`). -/
def mapSet (m : ClientMap) (k : String) (v : RLClient) : ClientMap :=
  fun k' => if k' = k then some v else m k'

/-- The `limiter` part of the application config: `enabled`, `rps`,
`burst`. -/
structure LimiterConfig where
  enabled : Bool
  rps : ℚ
  burst : ℕ
deriving DecidableEq

/-- Outcome of the rate-limit middleware for one request: pass the
request on, or short-circuit with `rateLimitExceededResponse`. -/
inductive RLOutcome
  | proceed
  | rateLimitExceeded
deriving DecidableEq

/-- One admission check of the `rateLimit` middleware (lines 69-90) for
client `ip` at time `now`: when the limiter is enabled, a first-seen
client gets a fresh full-burst bucket, `lastSeen` is set to `now`
regardless of outcome, and `limiter.Allow()` decides between passing the
request on and the rate-limit-exceeded short circuit. When the limiter
is disabled no accounting happens and the request proceeds. -/
def rateLimit (cfg : LimiterConfig) (ip : String) (now : ℚ) (m : ClientMap) :
    RLOutcome × ClientMap :=
  if cfg.enabled then
    let c0 : RLClient :=
      match m ip with
      | none => ⟨TokenBucket.new cfg.burst now, 0⟩
      | some c => c
    let c1 : RLClient := { c0 with lastSeen := now }
    let res := TokenBucket.allow cfg.burst cfg.rps c1.limiter now
    if res.1 then (.proceed, mapSet m ip { c1 with limiter := res.2 })
    else (.rateLimitExceeded, mapSet m ip { c1 with limiter := res.2 })
  else (.proceed, m)

/-- Iterated admission checks: `n` consecutive checks for `ip`, all at
the same instant `t`, returning the final registry and the list of
outcomes in order. -/
def checksAt (cfg : LimiterConfig) (ip : String) (t : ℚ) :
    ℕ → ClientMap → ClientMap × List RLOutcome
  | 0, m => (m, [])
  | n + 1, m =>
    let r := rateLimit cfg ip t m
    let rest := checksAt cfg ip t n r.2
    (rest.1, r.1 :: rest.2)

/-- Token count currently stored for `ip` (zero when absent); used to
state that a denied check consumes no token. -/
def tokensAt (m : ClientMap) (ip : String) : ℚ :=
  match m ip with
  | some c => c.limiter.tokens
  | none => 0

/-! ## Background sweeper (lines 52-68) -/

/-- Interval between sweeps: `time.Sleep(time.Minute)`. -/
def sweepIntervalSeconds : ℚ := 60

/-- Idle threshold for eviction: `3 * time.Minute`. -/
def idleThresholdSeconds : ℚ := 3 * 60

/-- Effect of one sweep body (lines 61-65) on the registry at time
`now`: every entry whose `lastSeen` lies more than the idle threshold in
the past is deleted, all other entries are kept unchanged. -/
def sweep (now : ℚ) (m : ClientMap) : ClientMap := fun ip =>
  match m ip with
  | some c => if now - c.lastSeen > idleThresholdSeconds then none else some c
  | none => none

/-! ## Mutex discipline of `rateLimit`

The registry is guarded by the single mutex `mu`. To settle the
concurrency claims we record the sequence of lock operations each code
path performs on `mu`, and run such traces against a mutex state
machine. -/

/-- A lock operation on the shared mutex `mu`. -/
inductive LockEvent
  | lock
  | unlock
deriving BEq, DecidableEq

/-- Lock operations of ONE iteration of the background sweeper
goroutine (lines 55-67): after `time.Sleep(time.Minute)` it calls
`mu.Lock()` (line 58), runs the deletion loop (lines 61-65, no lock
operations), and the iteration ends. The goroutine body contains no
`mu.Unlock()` call at all. -/
def sweeperIterationEvents : List LockEvent := [.lock]

/-- Lock operations of one admission check (lines 75-87): `mu.Lock()`
on line 75, then `mu.Unlock()` on line 83 (denied path) or line 87
(admitted path) — both paths release the mutex exactly once. -/
def admissionCheckEvents : List LockEvent := [.lock, .unlock]

/-- Mutex state machine over a trace of lock operations, starting with
the mutex held (`true`) or free (`false`). `none` means the trace
reached a `lock` while the mutex was already held: in a trace that
already contains every operation the holder will ever perform, the
acquirer blocks forever. -/
def mutexRun : List LockEvent → Bool → Option Bool
  | [], held => some held
  | .lock :: rest, held => if held then none else mutexRun rest true
  | .unlock :: rest, _ => mutexRun rest false

/-! ## Requests and headers -/

/-- The part of an HTTP request the middleware inspects: the method and
the request headers (name/value pairs; `Header.Get` returns the first
value, or the empty string when the header is absent). -/
structure Request where
  method : String
  headers : List (String × String)
deriving DecidableEq

/-- First value of header `k` in a header list (`r.Header.Get`). -/
def findHeader (k : String) : List (String × String) → Option String
  | [] => none
  | (k', v) :: rest => if k' = k then some v else findHeader k rest

/-- The value `r.Header.Get(k)` yields: the first value of `k`, or `""`
when absent. -/
def Request.getHeader (r : Request) (k : String) : String :=
  (findHeader k r.headers).getD ""

/-- Splitting a character list at every occurrence of `sep`, keeping
empty pieces, as Go's `strings.Split` does for a one-character
separator: the empty input gives one empty piece, and each separator
starts a new piece. -/
def splitChars (sep : Char) : List Char → List (List Char)
  | [] => [[]]
  | c :: rest =>
    let r := splitChars sep rest
    if c = sep then [] :: r
    else
      match r with
      | [] => [[c]]
      | w :: ws => (c :: w) :: ws

/-- Go's `strings.Split(s, sep)` for a one-character separator (the
middleware calls it with `" "`). -/
def stringsSplit (sep : Char) (s : String) : List String :=
  (splitChars sep s.data).map fun cs => ⟨cs⟩

/-! ## Users and identities (`internal/data`, attached via
`contextSetUser` / `contextGetUser`) -/

/-- A user record as the middleware sees it: `ID` and `Activated`. -/
structure User where
  id : ℕ
  activated : Bool
deriving DecidableEq

/-- The identity attached to a request context: the `AnonymousUser`
sentinel or a resolved user. `IsAnonymous` is true exactly for the
sentinel, whose `ID` is zero and whose `Activated` flag is false (Go
zero values). -/
inductive Identity
  | anonymous
  | user (u : User)
deriving DecidableEq

/-- The `user.IsAnonymous()` check. -/
def Identity.isAnonymous : Identity → Bool
  | .anonymous => true
  | .user _ => false

/-- The `user.Activated` field (false for the anonymous sentinel). -/
def Identity.activated : Identity → Bool
  | .anonymous => false
  | .user u => u.activated

/-- The `user.ID` field (zero for the anonymous sentinel). -/
def Identity.id : Identity → ℕ
  | .anonymous => 0
  | .user u => u.id

/-! ## Authentication (`authenticate`, lines 93-135) -/

/-- Modelled from the spec: the scope qualifier
`data.ScopeAuthentication` passed to the token-resolution collaborator
(the `internal/data` package is not part of src). Its concrete value is
irrelevant to the claims; only that this qualifier is what the
middleware passes. -/
def ScopeAuthentication : String := "authentication"

/-- Error from the token-resolution collaborator
`app.models.Users.GetForToken`: `data.ErrRecordNotFound`, or any other
failure. -/
inductive TokenLookupError
  | recordNotFound
  | other (msg : String)
deriving DecidableEq

/-- Outcome of the authenticate middleware for one request: attach
`ident` and invoke the next stage, or short-circuit with the
invalid-authentication-token response or with `serverErrorResponse`. -/
inductive AuthOutcome
  | proceed (ident : Identity)
  | invalidAuthToken
  | serverError
deriving DecidableEq

/-- Result of the authenticate middleware: the outcome, plus whether
the token-resolution collaborator (`GetForToken`) was invoked on the
way there. -/
structure AuthResult where
  outcome : AuthOutcome
  lookupCalled : Bool
deriving DecidableEq

/-- The `authenticate` middleware (lines 93-135). `validShape` is the
collaborator `data.ValidateTokenPlaintext` (true when the validator
accepts), `getForToken` is `app.models.Users.GetForToken`. An absent
Authorization header attaches the anonymous identity; a header that
does not split (on single spaces, as `strings.Split`) into exactly
`Bearer` and a token, or whose token fails shape validation,
short-circuits with the invalid-token response before any lookup; only
then is the collaborator consulted, a `recordNotFound` mapping to the
invalid-token response, any other error to a server error, and success
attaching the authenticated user. The unconditional
`Vary: Authorization` response header (line 98) is not modelled, no
claim being about it. -/
def authenticate (validShape : String → Bool)
    (getForToken : String → String → Except TokenLookupError User)
    (r : Request) : AuthResult :=
  let authorizationHeader := r.getHeader "Authorization"
  if authorizationHeader = "" then ⟨.proceed .anonymous, false⟩
  else
    let headerParts := stringsSplit ' ' authorizationHeader
    if headerParts.length ≠ 2 ∨ headerParts.headD "" ≠ "Bearer" then
      ⟨.invalidAuthToken, false⟩
    else
      let token := headerParts.getD 1 ""
      if validShape token = false then ⟨.invalidAuthToken, false⟩
      else
        match getForToken ScopeAuthentication token with
        | .error .recordNotFound => ⟨.invalidAuthToken, true⟩
        | .error (.other _) => ⟨.serverError, true⟩
        | .ok u => ⟨.proceed (.user u), true⟩

/-! ## Authorization gates (`requireAuthenticatedUser`,
`requireActivatedUser`, `requirePermission`, lines 137-179) -/

/-- Outcome of the authorization-gate stack for one request: one of the
short-circuit responses, or the wrapped handler ran. -/
inductive GateOutcome
  | authenticationRequired
  | inactiveAccount
  | serverError
  | notPermitted
  | handlerRun
deriving DecidableEq

/-- Result of running a gate: the outcome, plus whether the permission
collaborator (`app.models.Permissions.GetAllForUser`) was invoked. -/
structure GateResult where
  outcome : GateOutcome
  permissionsQueried : Bool
deriving DecidableEq

/-- A handler in the gate stack: the identity attached to the request
context determines the result. -/
abbrev GateHandler := Identity → GateResult

/-- The `requireAuthenticatedUser` middleware (lines 137-146): an
anonymous identity short-circuits with
`authenticationRequiredResponse`, anything else reaches `next`. -/
def requireAuthenticatedUser (next : GateHandler) : GateHandler :=
  fun ident =>
    if ident.isAnonymous then ⟨.authenticationRequired, false⟩
    else next ident

/-- The `requireActivatedUser` middleware (lines 147-159): a
non-activated user short-circuits with `inactiveAccountResponse`, and
the whole check is wrapped in `requireAuthenticatedUser`. -/
def requireActivatedUser (next : GateHandler) : GateHandler :=
  requireAuthenticatedUser fun ident =>
    if ident.activated = false then ⟨.inactiveAccount, false⟩
    else next ident

/-- The `requirePermission` middleware (lines 161-179):
`GetAllForUser(user.ID)` is queried, a collaborator failure
short-circuiting with `serverErrorResponse`, a permission set not
containing `code` with `notPermittedResponse`; the whole check is
wrapped in `requireActivatedUser`. -/
def requirePermission (getAllForUser : ℕ → Except String (List String))
    (code : String) (next : GateHandler) : GateHandler :=
  requireActivatedUser fun ident =>
    match getAllForUser ident.id with
    | .error _ => ⟨.serverError, true⟩
    | .ok permissions =>
      if permissions.contains code = false then ⟨.notPermitted, true⟩
      else ⟨(next ident).outcome, true⟩

/-- The business handler at the bottom of the gate stack: it runs, and
it is not itself a permission query. -/
def theHandler : GateHandler := fun _ => ⟨.handlerRun, false⟩

/-! ## CORS (`enableCORS`, lines 181-205) -/

/-- Result of the CORS middleware for one request: the response headers
it has set (in order), the status it wrote itself (when it wrote one),
and whether the downstream handler was invoked. -/
structure CORSResult where
  headers : List (String × String)
  wroteStatus : Option ℕ
  handlerInvoked : Bool
deriving DecidableEq

/-- The `enableCORS` middleware (lines 181-205). Both Vary headers are
added unconditionally. When an Origin header is present and equals some
entry of the trusted-origins list (the loop at lines 188-201 matches by
exact string equality and stops at the first hit, which necessarily
equals `origin` itself), Access-Control-Allow-Origin is set; a request
that moreover has method OPTIONS and a non-empty
Access-Control-Request-Method header is answered on the spot with the
fixed Allow-Methods and Allow-Headers values and status 200, never
reaching the downstream handler. In every other case the downstream
handler is invoked. -/
def enableCORS (trustedOrigins : List String) (r : Request) : CORSResult :=
  let varied := [("Vary", "Origin"), ("Vary", "Access-Control-Request-Method")]
  let origin := r.getHeader "Origin"
  if origin ≠ "" ∧ trustedOrigins.contains origin then
    let allowed := varied ++ [("Access-Control-Allow-Origin", origin)]
    if r.method = "OPTIONS" ∧ r.getHeader "Access-Control-Request-Method" ≠ "" then
      ⟨allowed ++
        [("Access-Control-Allow-Methods", "OPTIONS, PUT, PATCH, DELETE"),
         ("Access-Control-Allow-Headers", "Authorization, Content-Type")],
       some 200, false⟩
    else ⟨allowed, none, true⟩
  else ⟨varied, none, true⟩

/-! ## Metrics (`metricsResponseWriter` lines 207-235, `metrics`
lines 237-257) -/

/-- One call a handler makes on the wrapped response writer: an
explicit `WriteHeader(code)`, or a `Write` of body bytes. -/
inductive WriterOp
  | writeHeader (code : ℕ)
  | write
deriving DecidableEq

/-- The observing state of `metricsResponseWriter`: the recorded status
code (initialised to 200 by `newMetricsResponseWriter`) and whether a
header has been committed. The delegation to the wrapped writer is not
modelled; only the observed state matters to the claims. -/
structure MetricsResponseWriter where
  statusCode : ℕ
  headerWritten : Bool
deriving DecidableEq

/-- The `newMetricsResponseWriter` constructor (lines 213-218):
status 200, header not yet written. -/
def newMetricsResponseWriter : MetricsResponseWriter := ⟨200, false⟩

/-- The `WriteHeader` method (lines 222-228): the first explicit call
records its code; later calls change nothing but the (already true)
flag. -/
def MetricsResponseWriter.handleWriteHeader (mw : MetricsResponseWriter)
    (code : ℕ) : MetricsResponseWriter :=
  if mw.headerWritten = false then ⟨code, true⟩ else ⟨mw.statusCode, true⟩

/-- The `Write` method (lines 229-232): writing body bytes commits the
header (leaving the recorded status code untouched). -/
def MetricsResponseWriter.handleWrite (mw : MetricsResponseWriter) :
    MetricsResponseWriter :=
  ⟨mw.statusCode, true⟩

/-- Runs a handler's sequence of writer calls against the observing
writer. -/
def runOps : List WriterOp → MetricsResponseWriter → MetricsResponseWriter
  | [], mw => mw
  | .writeHeader c :: rest, mw => runOps rest (mw.handleWriteHeader c)
  | .write :: rest, mw => runOps rest mw.handleWrite

/-- The four expvar counters of the `metrics` middleware (lines
238-244). The per-status map is an association list from status code to
count (`expvar.Map.Add` on the decimal key). -/
structure MetricsState where
  totalRequestsReceived : ℕ
  totalResponsesSent : ℕ
  totalProcessingTimeMicroseconds : ℤ
  totalResponsesSentByStatus : List (ℕ × ℕ)
deriving DecidableEq

/-- Counters as initialised at chain construction: all zero, no status
keys. -/
def metricsInit : MetricsState := ⟨0, 0, 0, []⟩

/-- The `expvar.Map.Add(key, 1)` operation on the per-status map. -/
def bumpStatus (code : ℕ) : List (ℕ × ℕ) → List (ℕ × ℕ)
  | [] => [(code, 1)]
  | (c, n) :: rest =>
    if c = code then (c, n + 1) :: rest else (c, n) :: bumpStatus code rest

/-- Sum of all per-status counters. -/
def sumCounts (l : List (ℕ × ℕ)) : ℕ := (l.map Prod.snd).sum

/-- The `metrics` middleware handling one request (lines 245-257).
`inner` is the downstream execution: a list of writer calls on normal
return, or `Except.error` when it panics. The received counter is
incremented before dispatch; a panic unwinds out of this middleware
(second component `.error`, post-dispatch lines skipped, the counters
updated so far persisting); on normal return the sent counter, the
per-status counter for the observed status and the cumulative duration
are updated. -/
def metricsHandle (inner : Except String (List WriterOp)) (duration : ℤ)
    (s : MetricsState) : MetricsState × Except String Unit :=
  let s1 := { s with totalRequestsReceived := s.totalRequestsReceived + 1 }
  match inner with
  | .error e => (s1, .error e)
  | .ok ops =>
    let mw := runOps ops newMetricsResponseWriter
    ({ s1 with
        totalResponsesSent := s1.totalResponsesSent + 1,
        totalResponsesSentByStatus :=
          bumpStatus mw.statusCode s1.totalResponsesSentByStatus,
        totalProcessingTimeMicroseconds :=
          s1.totalProcessingTimeMicroseconds + duration },
     .ok ())

/-- Runs a sequence of normally-returning requests (each a list of
writer calls plus its measured duration) through the metrics
middleware. -/
def metricsRun : List (List WriterOp × ℤ) → MetricsState → MetricsState
  | [], s => s
  | (ops, d) :: rest, s => metricsRun rest (metricsHandle (.ok ops) d s).1

/-! ## Panic recovery (`recoverPanic`, lines 20-38) -/

/-- The response surface `recoverPanic` touches: headers set so far and
the status written. -/
structure ResponseState where
  headers : List (String × String)
  status : Option ℕ
deriving DecidableEq

/-- The `app.serverErrorResponse` helper as observed here: it writes a
500 status. -/
def serverErrorResponse (w : ResponseState) : ResponseState :=
  { w with status := some 500 }

/-- Setting a response header (`w.Header().Set`). -/
def setHeader (w : ResponseState) (k v : String) : ResponseState :=
  { w with headers := w.headers ++ [(k, v)] }

/-- The `recoverPanic` middleware (lines 20-38) around one request.
`next` is the downstream execution on writer `w`: its final writer
state on normal return, or `Except.error` when it panics. The deferred
`recover` turns a panic into a `Connection: close` header plus a
500 server-error response; the result type being a plain
`ResponseState`, the failure never propagates past this stage. -/
def recoverPanic (next : Except String ResponseState) (w : ResponseState) :
    ResponseState :=
  match next with
  | .ok w' => w'
  | .error _ => serverErrorResponse (setHeader w "Connection" "close")

/-- Serves a sequence of independent requests, each through
`recoverPanic` on a fresh writer `w0`: the serving process survives
every request. -/
def serveAll (reqs : List (Except String ResponseState))
    (w0 : ResponseState) : List ResponseState :=
  reqs.map fun next => recoverPanic next w0

/-! ## Theorems for the claims -/

/-- A list of length two is literally a pair. -/
theorem list_eq_pair_of_length_two {α : Type} {l : List α}
    (h : l.length = 2) : ∃ a b, l = [a, b] := by
  rcases l with _ | ⟨a, _ | ⟨b, _ | ⟨c, t⟩⟩⟩ <;> simp at h
  exact ⟨a, b, rfl⟩

/-- C9: the claim says every admission check eventually acquires the
registry lock because the sweep releases it after each sweep. The code
does not: one admission check on its own is lock-balanced, the sweeper's
first iteration ends holding the mutex (it contains no `mu.Unlock()`
call at all), and an admission check attempted after it — like the
sweeper's own second iteration — blocks forever on `mu.Lock()`. -/
theorem sweeper_lock_never_released :
    mutexRun admissionCheckEvents false = some false
    ∧ mutexRun sweeperIterationEvents false = some true
    ∧ mutexRun (sweeperIterationEvents ++ admissionCheckEvents) false = none
    ∧ sweeperIterationEvents.count .unlock = 0 := by
  decide

/-- C7: a panicking downstream execution is caught by the recovery
guard (which by construction returns a plain response, never
re-raising), yields a `Connection: close` header and a 500 server-error
response, while a normally-returning execution passes through
untouched; serving a sequence of requests always produces one response
per request, and the requests after a panicking one are served exactly
as they would be on their own. -/
theorem recoverPanic_contains_panics
    (reqs : List (Except String ResponseState)) (w0 : ResponseState)
    (e : String) :
    (serveAll reqs w0).length = reqs.length
    ∧ (∀ msg : String, recoverPanic (.error msg) w0 =
        ⟨w0.headers ++ [("Connection", "close")], some 500⟩)
    ∧ (∀ w' : ResponseState, recoverPanic (.ok w') w0 = w')
    ∧ serveAll (.error e :: reqs) w0 =
        recoverPanic (.error e) w0 :: serveAll reqs w0 := by
  refine ⟨by simp [serveAll], fun msg => rfl, fun w' => rfl, by simp [serveAll]⟩

/-- C10: when the downstream handler panics, the metrics stage has
already incremented the requests-received counter but never reaches the
post-dispatch lines: responses-sent, the per-status counters and the
cumulative processing time are untouched and the panic propagates
onwards (to the recovery guard wrapping metrics from outside, which
still produces the 500-with-`Connection: close` response); starting
from balanced counters, responses-sent ends strictly below
requests-received. -/
theorem metrics_panic_counter_gap (e : String) (dur : ℤ)
    (s : MetricsState) (w0 : ResponseState)
    (hbal : s.totalResponsesSent = s.totalRequestsReceived) :
    (metricsHandle (.error e) dur s).1 =
      { s with totalRequestsReceived := s.totalRequestsReceived + 1 }
    ∧ (metricsHandle (.error e) dur s).2 = .error e
    ∧ recoverPanic (.error e) w0 =
        ⟨w0.headers ++ [("Connection", "close")], some 500⟩
    ∧ (metricsHandle (.error e) dur s).1.totalResponsesSent <
        (metricsHandle (.error e) dur s).1.totalRequestsReceived := by
  refine ⟨rfl, rfl, rfl, ?_⟩
  simp [metricsHandle, hbal]

/-- Witness for C10 at concrete inputs: the initial counters are
balanced, and one panicking request leaves responses-sent strictly
below requests-received. -/
theorem metrics_panic_counter_gap_witness :
    metricsInit.totalResponsesSent = metricsInit.totalRequestsReceived
    ∧ (metricsHandle (.error "boom") 5 metricsInit).1.totalResponsesSent <
        (metricsHandle (.error "boom") 5 metricsInit).1.totalRequestsReceived :=
  ⟨rfl, (metrics_panic_counter_gap "boom" 5 metricsInit ⟨[], none⟩ rfl).2.2.2⟩

/-- C4: the permission gate is wrapped in the activation gate which is
wrapped in the authentication gate, so an anonymous identity gets the
authentication-required response with the permission collaborator never
consulted (the result does not even depend on it), an authenticated but
non-activated user gets the inactive-account response, and only an
authenticated activated user has the permission set queried, with the
not-permitted response exactly when the code is absent from it. -/
theorem requirePermission_guard_order
    (g : ℕ → Except String (List String)) (code : String)
    (next : GateHandler) :
    requirePermission g code next .anonymous =
      ⟨.authenticationRequired, false⟩
    ∧ (∀ u : User, u.activated = false →
        requirePermission g code next (.user u) = ⟨.inactiveAccount, false⟩)
    ∧ (∀ (u : User) (perms : List String), u.activated = true →
        g u.id = .ok perms →
        requirePermission g code theHandler (.user u) =
          ⟨if perms.contains code then .handlerRun else .notPermitted,
           true⟩) := by
  refine ⟨rfl, ?_, ?_⟩
  · intro u hu
    simp [requirePermission, requireActivatedUser, requireAuthenticatedUser,
      Identity.isAnonymous, Identity.activated, hu]
  · intro u perms hu hg
    simp only [requirePermission, requireActivatedUser,
      requireAuthenticatedUser, Identity.isAnonymous, Identity.activated,
      Identity.id, hu, hg, theHandler]
    by_cases h : code ∈ perms <;> simp [h]

/-- Witness for C4 at concrete inputs: an activated user whose
permission set lacks the required code is denied with not-permitted,
and an anonymous caller of the same gated route gets
authentication-required. -/
theorem requirePermission_guard_order_witness :
    requirePermission (fun _ => .ok ["movies:read"]) "movies:write"
        theHandler (.user ⟨1, true⟩) = ⟨.notPermitted, true⟩
    ∧ requirePermission (fun _ => .ok ["movies:read"]) "movies:write"
        theHandler .anonymous = ⟨.authenticationRequired, false⟩ := by
  have h := requirePermission_guard_order
    (fun _ => .ok ["movies:read"]) "movies:write" theHandler
  exact ⟨by rw [h.2.2 ⟨1, true⟩ ["movies:read"] rfl rfl]; decide, h.1⟩

/-- C2: with no Authorization header the anonymous identity is attached
and the next stage runs without any collaborator call; a header that
does not split into exactly two parts with scheme `Bearer`, or whose
token fails shape validation, short-circuits with the
invalid-authentication-token response without any collaborator call;
and whenever the collaborator was called, the header did split into
`Bearer` plus a token that passed shape validation. -/
theorem authenticate_header_gate (validShape : String → Bool)
    (g : String → String → Except TokenLookupError User) (r : Request) :
    (r.getHeader "Authorization" = "" →
      authenticate validShape g r = ⟨.proceed .anonymous, false⟩)
    ∧ (r.getHeader "Authorization" ≠ "" →
      (stringsSplit ' ' (r.getHeader "Authorization")).length ≠ 2
        ∨ (stringsSplit ' ' (r.getHeader "Authorization")).headD ""
            ≠ "Bearer" →
      authenticate validShape g r = ⟨.invalidAuthToken, false⟩)
    ∧ (∀ tok : String,
      stringsSplit ' ' (r.getHeader "Authorization") = ["Bearer", tok] →
      validShape tok = false →
      authenticate validShape g r = ⟨.invalidAuthToken, false⟩)
    ∧ ((authenticate validShape g r).lookupCalled = true →
      ∃ tok : String,
        stringsSplit ' ' (r.getHeader "Authorization") = ["Bearer", tok]
        ∧ validShape tok = true) := by
  have hempty : stringsSplit ' ' "" = [""] := rfl
  refine ⟨?_, ?_, ?_, ?_⟩
  · intro h
    simp [authenticate, h]
  · intro h hm
    simp only [authenticate]
    rw [if_neg h, if_pos hm]
  · intro tok hp hv
    have hne : r.getHeader "Authorization" ≠ "" := by
      intro h0
      rw [h0, hempty] at hp
      simp at hp
    simp [authenticate, hne, hp, hv]
  · intro hcalled
    by_cases h0 : r.getHeader "Authorization" = ""
    · simp [authenticate, h0] at hcalled
    · by_cases hm : (stringsSplit ' ' (r.getHeader "Authorization")).length ≠ 2
          ∨ (stringsSplit ' ' (r.getHeader "Authorization")).headD "" ≠ "Bearer"
      · rw [show authenticate validShape g r = ⟨.invalidAuthToken, false⟩ by
          simp only [authenticate]; rw [if_neg h0, if_pos hm]] at hcalled
        simp at hcalled
      · push_neg at hm
        obtain ⟨h2, hB⟩ := hm
        obtain ⟨a, b, hl⟩ := list_eq_pair_of_length_two h2
        rw [hl] at hB
        simp at hB
        subst hB
        by_cases hv : validShape b = false
        · simp [authenticate, h0, hl, hv] at hcalled
        · refine ⟨b, hl, ?_⟩
          revert hv
          cases validShape b <;> simp

/-- Witness for C2 at concrete inputs: a request with a two-part
Authorization header whose scheme is not `Bearer` gets the invalid-token
response, and the collaborator is not called. -/
theorem authenticate_header_gate_witness :
    authenticate (fun t => t.length = 26)
      (fun _ _ => .error .recordNotFound)
      ⟨"GET", [("Authorization", "Basic abc")]⟩ =
      ⟨.invalidAuthToken, false⟩ :=
  (authenticate_header_gate (fun t => t.length = 26)
      (fun _ _ => .error .recordNotFound)
      ⟨"GET", [("Authorization", "Basic abc")]⟩).2.1
    (by decide) (by decide)

/-- C3: once the bearer token has the valid shape, the token-resolution
collaborator is called with the authentication scope, and the stage's
outcome is exactly determined by the collaborator's answer: a
record-not-found maps to the invalid-authentication-token response, any
other error to the server-error response, and success attaches the
authenticated user and reaches the next stage. -/
theorem authenticate_lookup_outcomes (validShape : String → Bool)
    (g : String → String → Except TokenLookupError User) (r : Request)
    (tok : String)
    (hparts : stringsSplit ' ' (r.getHeader "Authorization") = ["Bearer", tok])
    (hshape : validShape tok = true) :
    authenticate validShape g r =
      ⟨match g ScopeAuthentication tok with
        | .error .recordNotFound => .invalidAuthToken
        | .error (.other _) => .serverError
        | .ok u => .proceed (.user u),
       true⟩ := by
  have hne : r.getHeader "Authorization" ≠ "" := by
    intro h0
    have hempty : stringsSplit ' ' "" = [""] := rfl
    rw [h0, hempty] at hparts
    simp at hparts
  have hvn : ¬ (validShape tok = false) := by simp [hshape]
  simp only [authenticate, hparts]
  rw [if_neg hne, if_neg (by simp), if_neg (by simpa using hvn)]
  rcases hg : g ScopeAuthentication tok with err | u
  · rcases err with _ | msg <;> simp [hg]
  · simp [hg]

/-- Witness for C3 at concrete inputs: a well-shaped bearer token that
the collaborator resolves successfully attaches the authenticated user,
with the collaborator having been called. -/
theorem authenticate_lookup_outcomes_witness :
    authenticate (fun _ => true) (fun _ _ => .ok ⟨7, true⟩)
      ⟨"GET", [("Authorization", "Bearer t")]⟩ =
      ⟨.proceed (.user ⟨7, true⟩), true⟩ :=
  authenticate_lookup_outcomes (fun _ => true) (fun _ _ => .ok ⟨7, true⟩)
    ⟨"GET", [("Authorization", "Bearer t")]⟩ "t" (by decide) rfl

/-- C5: a request whose Origin header equals some trusted origin, with
method OPTIONS and a non-empty Access-Control-Request-Method header, is
answered on the spot with status 200 and the fixed Allow-Methods and
Allow-Headers values, the downstream handler never running; a request
whose Origin header is absent or matches no trusted origin gets only
the two Vary headers and the downstream handler runs normally. -/
theorem enableCORS_preflight_and_untrusted (trustedOrigins : List String)
    (r : Request) :
    (r.getHeader "Origin" ≠ "" →
      r.getHeader "Origin" ∈ trustedOrigins →
      r.method = "OPTIONS" →
      r.getHeader "Access-Control-Request-Method" ≠ "" →
      enableCORS trustedOrigins r =
        ⟨[("Vary", "Origin"), ("Vary", "Access-Control-Request-Method"),
          ("Access-Control-Allow-Origin", r.getHeader "Origin"),
          ("Access-Control-Allow-Methods", "OPTIONS, PUT, PATCH, DELETE"),
          ("Access-Control-Allow-Headers", "Authorization, Content-Type")],
         some 200, false⟩)
    ∧ (r.getHeader "Origin" = "" ∨ r.getHeader "Origin" ∉ trustedOrigins →
      enableCORS trustedOrigins r =
        ⟨[("Vary", "Origin"), ("Vary", "Access-Control-Request-Method")],
         none, true⟩) := by
  constructor
  · intro h1 h2 h3 h4
    simp [enableCORS, h1, h2, h3, h4]
  · intro h
    rcases h with h | h
    · simp [enableCORS, h]
    · have : ¬ (r.getHeader "Origin" ≠ "" ∧
          trustedOrigins.contains (r.getHeader "Origin")) := by
        intro ⟨_, hc⟩
        exact h (by simpa using hc)
      simp only [enableCORS]
      rw [if_neg this]

/-- Witness for C5 at concrete inputs: a preflight request from a
trusted origin is answered directly with status 200, and the same
request from an untrusted origin passes through with only the Vary
headers. -/
theorem enableCORS_preflight_and_untrusted_witness :
    enableCORS ["https://a.example"]
      ⟨"OPTIONS", [("Origin", "https://a.example"),
        ("Access-Control-Request-Method", "PUT")]⟩ =
      ⟨[("Vary", "Origin"), ("Vary", "Access-Control-Request-Method"),
        ("Access-Control-Allow-Origin", "https://a.example"),
        ("Access-Control-Allow-Methods", "OPTIONS, PUT, PATCH, DELETE"),
        ("Access-Control-Allow-Headers", "Authorization, Content-Type")],
       some 200, false⟩
    ∧ enableCORS ["https://b.example"]
      ⟨"OPTIONS", [("Origin", "https://a.example"),
        ("Access-Control-Request-Method", "PUT")]⟩ =
      ⟨[("Vary", "Origin"), ("Vary", "Access-Control-Request-Method")],
       none, true⟩ :=
  ⟨(enableCORS_preflight_and_untrusted ["https://a.example"]
      ⟨"OPTIONS", [("Origin", "https://a.example"),
        ("Access-Control-Request-Method", "PUT")]⟩).1
      (by decide) (by decide) rfl (by decide),
   (enableCORS_preflight_and_untrusted ["https://b.example"]
      ⟨"OPTIONS", [("Origin", "https://a.example"),
        ("Access-Control-Request-Method", "PUT")]⟩).2
      (Or.inr (by decide))⟩

/-- Adding one to a per-status counter raises the sum of all counters
by one. -/
theorem sumCounts_bumpStatus (code : ℕ) (l : List (ℕ × ℕ)) :
    sumCounts (bumpStatus code l) = sumCounts l + 1 := by
  induction l with
  | nil => simp [bumpStatus, sumCounts]
  | cons p rest ih =>
    obtain ⟨c, n⟩ := p
    by_cases h : c = code <;> simp [bumpStatus, sumCounts, h] at ih ⊢ <;> omega

/-- Each normally-completing request raises requests-received,
responses-sent and the per-status total by exactly one. -/
theorem metricsRun_counters (reqs : List (List WriterOp × ℤ))
    (s : MetricsState) :
    (metricsRun reqs s).totalRequestsReceived
        = s.totalRequestsReceived + reqs.length
    ∧ (metricsRun reqs s).totalResponsesSent
        = s.totalResponsesSent + reqs.length
    ∧ sumCounts (metricsRun reqs s).totalResponsesSentByStatus
        = sumCounts s.totalResponsesSentByStatus + reqs.length := by
  induction reqs generalizing s with
  | nil => simp [metricsRun]
  | cons p rest ih =>
    obtain ⟨ops, d⟩ := p
    obtain ⟨h1, h2, h3⟩ := ih (metricsHandle (.ok ops) d s).1
    refine ⟨?_, ?_, ?_⟩
    · rw [metricsRun, h1]
      simp [metricsHandle]
      omega
    · rw [metricsRun, h2]
      simp [metricsHandle]
      omega
    · rw [metricsRun, h3]
      simp [metricsHandle, sumCounts_bumpStatus]
      omega

/-- A handler that only writes body bytes never changes the recorded
status code. -/
theorem runOps_write_only (ops : List WriterOp)
    (mw : MetricsResponseWriter) (h : ∀ op ∈ ops, op = .write) :
    (runOps ops mw).statusCode = mw.statusCode := by
  induction ops generalizing mw with
  | nil => rfl
  | cons op rest ih =>
    have hop := h op (by simp)
    subst hop
    rw [runOps]
    rw [ih mw.handleWrite (fun o ho => h o (by simp [ho]))]
    rfl

/-- C6: starting from the freshly initialised counters, after N
requests have completed through the metrics stage both
requests-received and responses-sent equal N and the per-status
counters sum to N; and a request whose handler only writes body bytes,
never calling WriteHeader, is recorded with status 200 (the default the
wrapping writer starts with). -/
theorem metrics_counters_consistent (reqs : List (List WriterOp × ℤ)) :
    (metricsRun reqs metricsInit).totalRequestsReceived = reqs.length
    ∧ (metricsRun reqs metricsInit).totalResponsesSent = reqs.length
    ∧ sumCounts (metricsRun reqs metricsInit).totalResponsesSentByStatus
        = reqs.length
    ∧ (∀ ops : List WriterOp, (∀ op ∈ ops, op = .write) →
        (runOps ops newMetricsResponseWriter).statusCode = 200) := by
  obtain ⟨h1, h2, h3⟩ := metricsRun_counters reqs metricsInit
  refine ⟨?_, ?_, ?_, ?_⟩
  · simpa [metricsInit] using h1
  · simpa [metricsInit] using h2
  · simpa [metricsInit, sumCounts] using h3
  · intro ops hops
    rw [runOps_write_only ops newMetricsResponseWriter hops]
    rfl

/-- Witness for C6 at concrete inputs: three requests (one writing body
bytes without WriteHeader, one setting 404 explicitly, one empty) leave
both counters at three with per-status counters also summing to three,
and the body-only handler is recorded as 200. -/
theorem metrics_counters_consistent_witness :
    (metricsRun [([.write], 3), ([.writeHeader 404, .write], 7), ([], 1)]
        metricsInit).totalResponsesSent = 3
    ∧ (metricsRun [([.write], 3), ([.writeHeader 404, .write], 7), ([], 1)]
        metricsInit).totalRequestsReceived = 3
    ∧ sumCounts (metricsRun
        [([.write], 3), ([.writeHeader 404, .write], 7), ([], 1)]
        metricsInit).totalResponsesSentByStatus = 3
    ∧ (runOps [.write] newMetricsResponseWriter).statusCode = 200 :=
  ⟨(metrics_counters_consistent
      [([.write], 3), ([.writeHeader 404, .write], 7), ([], 1)]).2.1,
   (metrics_counters_consistent
      [([.write], 3), ([.writeHeader 404, .write], 7), ([], 1)]).1,
   (metrics_counters_consistent
      [([.write], 3), ([.writeHeader 404, .write], 7), ([], 1)]).2.2.1,
   (metrics_counters_consistent
      [([.write], 3), ([.writeHeader 404, .write], 7), ([], 1)]).2.2.2
      [.write] (by decide)⟩

/-- Unfolding of an admission check with the limiter enabled for a
client already present in the registry. -/
theorem rateLimit_enabled_found (cfg : LimiterConfig) (ip : String)
    (now : ℚ) (m : ClientMap) (c : RLClient)
    (hen : cfg.enabled = true) (hm : m ip = some c) :
    rateLimit cfg ip now m =
      (if (TokenBucket.allow cfg.burst cfg.rps c.limiter now).1 then
        (.proceed, mapSet m ip
          ⟨(TokenBucket.allow cfg.burst cfg.rps c.limiter now).2, now⟩)
      else
        (.rateLimitExceeded, mapSet m ip
          ⟨(TokenBucket.allow cfg.burst cfg.rps c.limiter now).2, now⟩)) := by
  simp [rateLimit, hen, hm]

/-- Unfolding of an admission check with the limiter enabled for a
first-seen client: a fresh full-burst bucket is created. -/
theorem rateLimit_enabled_fresh (cfg : LimiterConfig) (ip : String)
    (now : ℚ) (m : ClientMap)
    (hen : cfg.enabled = true) (hm : m ip = none) :
    rateLimit cfg ip now m =
      (if (TokenBucket.allow cfg.burst cfg.rps
            (TokenBucket.new cfg.burst now) now).1 then
        (.proceed, mapSet m ip
          ⟨(TokenBucket.allow cfg.burst cfg.rps
              (TokenBucket.new cfg.burst now) now).2, now⟩)
      else
        (.rateLimitExceeded, mapSet m ip
          ⟨(TokenBucket.allow cfg.burst cfg.rps
              (TokenBucket.new cfg.burst now) now).2, now⟩)) := by
  simp [rateLimit, hen, hm]

/-- With no time elapsed since the last refill, `allow` sees exactly
the stored token count (provided it does not exceed the cap). -/
theorem allow_no_elapsed (burst : ℕ) (rps : ℚ) (c t : ℚ)
    (hc : c ≤ (burst : ℚ)) :
    TokenBucket.allow burst rps ⟨c, t⟩ t =
      if 1 ≤ c then (true, ⟨c - 1, t⟩) else (false, ⟨c, t⟩) := by
  simp [TokenBucket.allow, min_eq_right hc]

/-- A first-seen admission check with the limiter enabled and a
positive burst creates the full-burst bucket, admits, and stores the
bucket with one token consumed. -/
theorem rateLimit_first_seen (cfg : LimiterConfig) (ip : String) (t : ℚ)
    (m : ClientMap) (hen : cfg.enabled = true) (hm : m ip = none)
    (hB : 1 ≤ cfg.burst) :
    rateLimit cfg ip t m =
      (.proceed, mapSet m ip ⟨⟨(cfg.burst : ℚ) - 1, t⟩, t⟩) := by
  have h1 : (1 : ℚ) ≤ (cfg.burst : ℚ) := by exact_mod_cast hB
  rw [rateLimit_enabled_fresh cfg ip t m hen hm, TokenBucket.new,
    allow_no_elapsed _ _ _ _ le_rfl, if_pos h1]
  simp

/-- Immediate admission checks drain the bucket one token at a time:
starting from a registry entry holding `c` tokens at time `t`, `k ≤ c`
checks at that same instant are all admitted and leave `c - k`
tokens. -/
theorem checksAt_drains (cfg : LimiterConfig) (ip : String) (t : ℚ)
    (hen : cfg.enabled = true) (k : ℕ) :
    ∀ (c : ℚ) (m : ClientMap),
      m ip = some ⟨⟨c, t⟩, t⟩ → (k : ℚ) ≤ c → c ≤ (cfg.burst : ℚ) →
      (checksAt cfg ip t k m).1 ip = some ⟨⟨c - (k : ℚ), t⟩, t⟩
      ∧ (checksAt cfg ip t k m).2 = List.replicate k .proceed := by
  induction k with
  | zero =>
    intro c m hm _ _
    refine ⟨by simpa [checksAt] using hm, by simp [checksAt]⟩
  | succ n ih =>
    intro c m hm hkc hcB
    have hn1 : ((n + 1 : ℕ) : ℚ) = (n : ℚ) + 1 := by push_cast; ring
    have h0n : (0 : ℚ) ≤ (n : ℚ) := Nat.cast_nonneg n
    rw [hn1] at hkc
    have h1 : (1 : ℚ) ≤ c := by linarith
    have hstep : rateLimit cfg ip t m =
        (.proceed, mapSet m ip ⟨⟨c - 1, t⟩, t⟩) := by
      rw [rateLimit_enabled_found cfg ip t m _ hen hm]
      have hc : (⟨⟨c, t⟩, t⟩ : RLClient).limiter = ⟨c, t⟩ := rfl
      rw [hc, allow_no_elapsed _ _ _ _ hcB, if_pos h1]
      simp
    have hm' : (mapSet m ip ⟨⟨c - 1, t⟩, t⟩) ip = some ⟨⟨c - 1, t⟩, t⟩ := by
      simp [mapSet]
    have hrec := ih (c - 1) (mapSet m ip ⟨⟨c - 1, t⟩, t⟩) hm'
      (by linarith) (by linarith)
    have hval : c - 1 - (n : ℚ) = c - ((n + 1 : ℕ) : ℚ) := by
      rw [hn1]; ring
    constructor
    · simp only [checksAt, hstep]
      rw [hrec.1, hval]
    · simp only [checksAt, hstep]
      rw [hrec.2, List.replicate_succ]

/-- C1: with the limiter enabled, burst capacity at least one and a
positive refill rate, a fresh client's first `burst` admission checks
at one instant are all admitted, the next immediate check is denied
with the rate-limit-exceeded response and leaves the stored token count
unchanged, and a further check after `1 / rps` seconds is admitted
again. -/
theorem rateLimit_burst_semantics (cfg : LimiterConfig) (ip : String)
    (t : ℚ) (hen : cfg.enabled = true) (hB : 1 ≤ cfg.burst)
    (hR : 0 < cfg.rps) :
    (checksAt cfg ip t cfg.burst emptyClientMap).2 =
        List.replicate cfg.burst .proceed
    ∧ (rateLimit cfg ip t
        (checksAt cfg ip t cfg.burst emptyClientMap).1).1
        = .rateLimitExceeded
    ∧ tokensAt (rateLimit cfg ip t
          (checksAt cfg ip t cfg.burst emptyClientMap).1).2 ip
        = tokensAt (checksAt cfg ip t cfg.burst emptyClientMap).1 ip
    ∧ (rateLimit cfg ip (t + 1 / cfg.rps)
        (rateLimit cfg ip t
          (checksAt cfg ip t cfg.burst emptyClientMap).1).2).1
        = .proceed := by
  obtain ⟨n, hn⟩ : ∃ n, cfg.burst = n + 1 := ⟨cfg.burst - 1, by omega⟩
  have hfresh := rateLimit_first_seen cfg ip t emptyClientMap hen rfl hB
  have hm1 : (mapSet emptyClientMap ip ⟨⟨(cfg.burst : ℚ) - 1, t⟩, t⟩) ip
      = some ⟨⟨(cfg.burst : ℚ) - 1, t⟩, t⟩ := by simp [mapSet]
  have hcast : ((cfg.burst : ℕ) : ℚ) = (n : ℚ) + 1 := by
    rw [hn]; push_cast; ring
  have hdrain := checksAt_drains cfg ip t hen n ((cfg.burst : ℚ) - 1)
      (mapSet emptyClientMap ip ⟨⟨(cfg.burst : ℚ) - 1, t⟩, t⟩) hm1
      (by rw [hcast]; linarith)
      (by linarith [sub_le_self (cfg.burst : ℚ) (zero_le_one' ℚ)])
  have hz : (cfg.burst : ℚ) - 1 - (n : ℚ) = 0 := by rw [hcast]; ring
  have hrun1 : (checksAt cfg ip t cfg.burst emptyClientMap).1 ip
      = some ⟨⟨0, t⟩, t⟩ := by
    conv_lhs => rw [hn]
    simp only [checksAt, hfresh]
    rw [hdrain.1, hz]
  have hrun2 : (checksAt cfg ip t cfg.burst emptyClientMap).2
      = List.replicate cfg.burst .proceed := by
    conv_lhs => rw [hn]
    rw [hn]
    simp only [checksAt, hfresh]
    rw [hdrain.2, List.replicate_succ]
  have hB0 : (0 : ℚ) ≤ (cfg.burst : ℚ) := Nat.cast_nonneg _
  have hallow0 : TokenBucket.allow cfg.burst cfg.rps ⟨0, t⟩ t
      = (false, ⟨0, t⟩) := by
    rw [allow_no_elapsed _ _ _ _ hB0, if_neg (by norm_num)]
  have hdenied : rateLimit cfg ip t
      (checksAt cfg ip t cfg.burst emptyClientMap).1 =
      (.rateLimitExceeded,
        mapSet (checksAt cfg ip t cfg.burst emptyClientMap).1 ip
          ⟨⟨0, t⟩, t⟩) := by
    rw [rateLimit_enabled_found cfg ip t _ _ hen hrun1]
    have hc : (⟨⟨0, t⟩, t⟩ : RLClient).limiter = ⟨0, t⟩ := rfl
    rw [hc, hallow0]
    simp
  have hmap2 : (mapSet (checksAt cfg ip t cfg.burst emptyClientMap).1 ip
      ⟨⟨0, t⟩, t⟩) ip = some ⟨⟨0, t⟩, t⟩ := by simp [mapSet]
  have hne : cfg.rps ≠ 0 := ne_of_gt hR
  have hmul : (t + 1 / cfg.rps - t) * cfg.rps = 1 := by
    field_simp
    ring
  have h1B : (1 : ℚ) ≤ (cfg.burst : ℚ) := by exact_mod_cast hB
  have hallow1 : TokenBucket.allow cfg.burst cfg.rps ⟨0, t⟩
      (t + 1 / cfg.rps) = (true, ⟨0, t + 1 / cfg.rps⟩) := by
    simp only [TokenBucket.allow, zero_add, hmul, min_eq_right h1B,
      if_pos le_rfl]
    norm_num
  refine ⟨hrun2, ?_, ?_, ?_⟩
  · rw [hdenied]
  · rw [hdenied]
    simp [tokensAt, mapSet, hrun1]
  · rw [hdenied]
    rw [rateLimit_enabled_found cfg ip (t + 1 / cfg.rps) _ _ hen hmap2]
    have hc : (⟨⟨0, t⟩, t⟩ : RLClient).limiter = ⟨0, t⟩ := rfl
    rw [hc, hallow1]
    simp

/-- Witness for C1 at concrete inputs: with the limiter enabled, burst
capacity 3 and rate 2 tokens per second, three immediate checks on a
fresh client all pass, the fourth is denied, and a check half a second
later passes again. -/
theorem rateLimit_burst_semantics_witness :
    ((⟨true, 2, 3⟩ : LimiterConfig).enabled = true
      ∧ 1 ≤ (⟨true, 2, 3⟩ : LimiterConfig).burst
      ∧ (0 : ℚ) < (⟨true, 2, 3⟩ : LimiterConfig).rps)
    ∧ (checksAt ⟨true, 2, 3⟩ "1.2.3.4" 0 3 emptyClientMap).2 =
        List.replicate 3 .proceed
    ∧ (rateLimit ⟨true, 2, 3⟩ "1.2.3.4" 0
        (checksAt ⟨true, 2, 3⟩ "1.2.3.4" 0 3 emptyClientMap).1).1
        = .rateLimitExceeded
    ∧ (rateLimit ⟨true, 2, 3⟩ "1.2.3.4" (0 + 1 / 2)
        (rateLimit ⟨true, 2, 3⟩ "1.2.3.4" 0
          (checksAt ⟨true, 2, 3⟩ "1.2.3.4" 0 3 emptyClientMap).1).2).1
        = .proceed :=
  ⟨⟨rfl, by decide, by decide⟩,
   (rateLimit_burst_semantics ⟨true, 2, 3⟩ "1.2.3.4" 0 rfl (by decide)
      (by decide)).1,
   (rateLimit_burst_semantics ⟨true, 2, 3⟩ "1.2.3.4" 0 rfl (by decide)
      (by decide)).2.1,
   (rateLimit_burst_semantics ⟨true, 2, 3⟩ "1.2.3.4" 0 rfl (by decide)
      (by decide)).2.2.2⟩

/-- C8: the claim's eviction semantics are right about the sweep body:
a sweep at time `now` keeps exactly the entries whose `lastSeen` is at
most the three-minute threshold old, and an evicted client's next
admission check would find no entry and create a fresh full-burst
bucket. But the sweeps are not actually fired once per minute: the
sweeper goroutine never releases the mutex it acquires, so its second
iteration — and with it every sweep after the first, as well as the
evicted client's next request — blocks forever on `mu.Lock()`. -/
theorem sweep_evicts_idle_clients (now t : ℚ) (m : ClientMap)
    (ip : String) (cfg : LimiterConfig)
    (hen : cfg.enabled = true) (hB : 1 ≤ cfg.burst) :
    (∀ c : RLClient, sweep now m ip = some c ↔
      m ip = some c ∧ ¬ now - c.lastSeen > idleThresholdSeconds)
    ∧ (∀ c : RLClient, m ip = some c →
      now - c.lastSeen > idleThresholdSeconds →
      sweep now m ip = none
      ∧ rateLimit cfg ip t (sweep now m)
          = (.proceed,
             mapSet (sweep now m) ip ⟨⟨(cfg.burst : ℚ) - 1, t⟩, t⟩))
    ∧ mutexRun (sweeperIterationEvents ++ sweeperIterationEvents) false
        = none := by
  refine ⟨?_, ?_, by decide⟩
  · intro c
    cases hm : m ip with
    | none => simp [sweep, hm]
    | some c' =>
      by_cases hidle : now - c'.lastSeen > idleThresholdSeconds
      · simp only [sweep, hm, if_pos hidle]
        constructor
        · intro h; cases h
        · rintro ⟨hc, hnidle⟩
          cases hc
          exact absurd hidle hnidle
      · simp only [sweep, hm, if_neg hidle]
        constructor
        · intro h; cases h; exact ⟨rfl, hidle⟩
        · rintro ⟨hc, _⟩; cases hc; rfl
  · intro c hm hidle
    have hnone : sweep now m ip = none := by
      simp [sweep, hm, if_pos hidle]
    exact ⟨hnone, rateLimit_first_seen cfg ip t (sweep now m) hen hnone hB⟩

/-- Witness for C8 at concrete inputs: an entry last seen at time 0 is
gone from the sweep at time 200 (more than three minutes later), and
the client's next admission check at time 300 is treated as first-seen
with a fresh full-burst (here 2) bucket, one token being consumed. -/
theorem sweep_evicts_idle_clients_witness :
    (mapSet emptyClientMap "a" ⟨⟨1, 0⟩, 0⟩) "a" = some ⟨⟨1, 0⟩, 0⟩
    ∧ ((200 : ℚ) - (0 : ℚ) > idleThresholdSeconds)
    ∧ sweep 200 (mapSet emptyClientMap "a" ⟨⟨1, 0⟩, 0⟩) "a" = none
    ∧ rateLimit ⟨true, 1, 2⟩ "a" 300
        (sweep 200 (mapSet emptyClientMap "a" ⟨⟨1, 0⟩, 0⟩))
        = (.proceed,
           mapSet (sweep 200 (mapSet emptyClientMap "a" ⟨⟨1, 0⟩, 0⟩)) "a"
             ⟨⟨((2 : ℕ) : ℚ) - 1, 300⟩, 300⟩) := by
  have h := (sweep_evicts_idle_clients 200 300
      (mapSet emptyClientMap "a" ⟨⟨1, 0⟩, 0⟩) "a" ⟨true, 1, 2⟩ rfl
      (by decide)).2.1 ⟨⟨1, 0⟩, 0⟩ (by decide)
      (by norm_num [idleThresholdSeconds])
  exact ⟨by decide, by norm_num [idleThresholdSeconds], h.1, h.2⟩

end Greenlight
